import Mathlib

/-!
Verification of the tutorial-snippet repository against its specification.

Each C++ snippet named by the claims is shallowly embedded below:
pure computations become Lean functions, console and socket side effects
become explicit event traces, and the stateful objects (thread pool,
flyweight factory, weather station, std::map instances) become explicit
state-passing functions.  Machine `double` is modelled as the exact
rationals `ℚ` (the control flow of the embedded code — in particular the
comparison `num2 == 0` — is unaffected by this choice), and C++ `int`
as `Int`.
-/

/-! ## Thread pool (src/code/threading/thread_pool.cpp)

`ThreadPool` holds only a vector of worker threads; the class has no
task queue member and no member function other than the constructor and
`worker`.  Each iteration of `ThreadPool::worker`'s infinite loop sleeps
for one second and prints one line.  We embed the observable events of a
worker and record that no dequeue/execute event can even be produced. -/

/-- Observable events of the thread-pool snippet.  `dequeueTask` and
`executeTask` are included so that their absence from every worker trace
is a statable property. -/
inductive PoolEvent where
  | sleepSeconds : Nat → PoolEvent
  | printLine : String → PoolEvent
  | dequeueTask : PoolEvent
  | executeTask : PoolEvent
deriving DecidableEq, Repr

def workerMsg : String := "Worker thread is working!"

/-- One iteration of the `while (true)` body of `ThreadPool::worker`:
sleep one second, then print. -/
def workerIteration : List PoolEvent :=
  [PoolEvent.sleepSeconds 1, PoolEvent.printLine workerMsg]

/-- The trace of the first `k` iterations of `ThreadPool::worker`. -/
def workerTrace : Nat → List PoolEvent
  | 0 => []
  | k + 1 => workerIteration ++ workerTrace k

/-- The `ThreadPool` class: its only data member is the vector
`workers` (thread handles, modelled as indices).  There is no queue. -/
structure ThreadPool where
  workers : List Nat
deriving DecidableEq, Repr

/-- The constructor `ThreadPool(size_t numThread)`: spawns `numThread`
workers, each running `worker`. -/
def mkThreadPool (numThread : Nat) : ThreadPool :=
  ⟨List.range numThread⟩

/-! ## Calculator (src/code/map/Custom_Map_Operation_Using_a_Functor.cpp) -/

/-- `calculate` from the calculator snippet.  A C++ `throw` of
`std::invalid_argument(msg)` is embedded as `Except.error msg`;
a normal return as `Except.ok`. -/
def calculate (num1 num2 : ℚ) (op : String) : Except String ℚ :=
  if op = "+" then Except.ok (num1 + num2)
  else if op = "-" then Except.ok (num1 - num2)
  else if op = "*" then Except.ok (num1 * num2)
  else if op = "/" then
    if num2 = 0 then Except.error "Error: Division by zero is not allowed."
    else Except.ok (num1 / num2)
  else Except.error "Error: Invalid operator.Support are +, -, *, /"

/-- Events of the calculator's `main` up to the three `argv` accesses:
a line printed to stderr, or a read of `argv[i]` whose flag records
whether the index is out of range (`argc ≤ i`). -/
inductive CalcEvent where
  | printErrLine : String → CalcEvent
  | readArgv : Nat → Bool → CalcEvent
deriving DecidableEq, Repr

def usageMsg : String := "Usage: calculator <num1> <operator> <num2>"

/-- The prefix of `main`'s behaviour that claim C3 is about: the
`argc != 4` check only prints the usage line (no `return`), and control
falls through to the `try` block, which reads `argv[1]`, `argv[2]` and
`argv[3]` unconditionally. -/
def calcMainTrace (argc : Nat) : List CalcEvent :=
  (if argc ≠ 4 then [CalcEvent.printErrLine usageMsg] else [])
    ++ [CalcEvent.readArgv 1 (decide (argc ≤ 1)),
        CalcEvent.readArgv 2 (decide (argc ≤ 2)),
        CalcEvent.readArgv 3 (decide (argc ≤ 3))]

/-! ## std::map-backed cache (src/unnamed/part_007, src/unnamed/part_004)

`std::map<std::string, std::string>` is embedded as an association list.
`cache[url] = content` is `mapAssign`; a read of `cache[url]` is
`mapIndexRead`, which (like `operator[]`) default-inserts an empty
string for an absent key and otherwise leaves the map unchanged.  The
snippet's whole mutable state is this one map local to `main`. -/

def mapAssign : List (String × String) → String → String → List (String × String)
  | [], k, v => [(k, v)]
  | (k', v') :: rest, k, v =>
    if k' = k then (k', v) :: rest else (k', v') :: mapAssign rest k v

def mapIndexRead : List (String × String) → String → String × List (String × String)
  | [], k => ("", [(k, "")])
  | (k', v') :: rest, k =>
    if k' = k then (v', (k', v') :: rest)
    else
      let r := mapIndexRead rest k
      (r.1, (k', v') :: r.2)

/-- The cache snippet's `main`: store a page under its URL, then look
the URL up; the value it prints after "Cache for " ++ url. -/
def cacheSnippetFinal : String :=
  let cache1 := mapAssign [] "http://example.com" "<html>hello</html>"
  (mapIndexRead cache1 "http://example.com").1

/-! ## Functor map snippet (src/code/map/Custom_Map_Operation_Using_a_Functor.cpp) -/

/-- `MultiplyByTwo::operator()(int x) const`. -/
def multiplyByTwo (x : Int) : Int := x * 2

def functorVec : List Int := [1, 2, 3, 4, 5]

/-- `std::transform(vec.begin(), vec.end(), vec.begin(), multiply)`. -/
def transformed : List Int := functorVec.map multiplyByTwo

/-- The printing loop `for (int val : vec) std::cout << val << " ";`. -/
def printSpaced (l : List Int) : String :=
  l.foldl (fun acc v => acc ++ toString v ++ " ") ""

/-! ## Map iteration snippet (src/code/map/MapIteration.cpp) -/

def incrementValue (x : Int) : Int := x + 1

def myMap : List (Int × Int) := [(1, 10), (2, 20), (3, 30)]

/-- The value-update loop: `for (auto& pair : myMap) pair.second =
incrementValue(pair.second);`. -/
def mapValuesInc (m : List (Int × Int)) : List (Int × Int) :=
  m.map (fun p => (p.1, incrementValue p.2))

/-- The printing loop, one "key: value" line per entry. -/
def printMapLines (m : List (Int × Int)) : List String :=
  m.map (fun p => toString p.1 ++ ": " ++ toString p.2)

/-! ## Flyweight (src/Design Pattern/Structural/Flyweight/flyweight.md)

`ConcreteCharacter` stores the intrinsic char; pointer identity of the
heap-allocated flyweights is modelled by a fresh numeric `id` drawn from
the factory's allocation counter.  `std::map<char, Character*>` is an
association list keyed by char. -/

structure ConcreteCharacter where
  id : Nat
  character : Char
deriving DecidableEq, Repr

structure FlyweightFactory where
  characterPool : List (Char × ConcreteCharacter)
  nextId : Nat
deriving DecidableEq, Repr

/-- `characterPool.find(c)` on the std::map. -/
def lookupPool : List (Char × ConcreteCharacter) → Char → Option ConcreteCharacter
  | [], _ => none
  | (k, v) :: rest, c => if k = c then some v else lookupPool rest c

/-- `FlyweightFactory::getCharacter`: return the pooled flyweight for
`c`, allocating a `new ConcreteCharacter(c)` only when the pool has no
entry for `c`. -/
def getCharacter (f : FlyweightFactory) (c : Char) :
    ConcreteCharacter × FlyweightFactory :=
  match lookupPool f.characterPool c with
  | some ch => (ch, f)
  | none =>
    let ch : ConcreteCharacter := ⟨f.nextId, c⟩
    (ch, ⟨f.characterPool ++ [(c, ch)], f.nextId + 1⟩)

/-- Pool invariant: every pooled flyweight stores exactly the char it is
keyed by and was allocated before the current counter, and the pool has
at most one entry per distinct char. -/
def PoolWF (f : FlyweightFactory) : Prop :=
  (∀ p ∈ f.characterPool, p.2.character = p.1 ∧ p.2.id < f.nextId) ∧
  (f.characterPool.map Prod.fst).Nodup

/-! ## Observer (src/Design Pattern/Behavioral/Observer/observer.md)

Observers are identified by numeric ids (pointer identity of the
`Observer*` values).  A call `observer->update(weatherData)` is the
event `(observer, weatherData)`. -/

abbrev ObserverId := Nat

structure WeatherStation where
  observers : List ObserverId
  weatherData : String
deriving DecidableEq, Repr

/-- `WeatherStation::attach`: `observers.push_back(observer)`. -/
def attach (ws : WeatherStation) (o : ObserverId) : WeatherStation :=
  { ws with observers := ws.observers ++ [o] }

/-- `WeatherStation::detach`: the erase-remove idiom drops every
occurrence of `observer`. -/
def detach (ws : WeatherStation) (o : ObserverId) : WeatherStation :=
  { ws with observers := ws.observers.filter (fun x => x != o) }

/-- `WeatherStation::notify`: call `update(weatherData)` on each
attached observer, in attachment order. -/
def notifyEvents (ws : WeatherStation) : List (ObserverId × String) :=
  ws.observers.map (fun o => (o, ws.weatherData))

/-- `WeatherStation::setWeatherData`: store the data, then notify. -/
def setWeatherData (ws : WeatherStation) (d : String) :
    WeatherStation × List (ObserverId × String) :=
  let ws2 := { ws with weatherData := d }
  (ws2, notifyEvents ws2)

/-- The operations the client can perform on a `WeatherStation`. -/
inductive WsOp where
  | attachOp : ObserverId → WsOp
  | detachOp : ObserverId → WsOp
  | setDataOp : String → WsOp
  | notifyOp : WsOp
deriving DecidableEq, Repr

/-- Run a sequence of operations, collecting every update event. -/
def runOps (ws : WeatherStation) : List WsOp → WeatherStation × List (ObserverId × String)
  | [] => (ws, [])
  | op :: rest =>
    let step : WeatherStation × List (ObserverId × String) :=
      match op with
      | WsOp.attachOp o => (attach ws o, [])
      | WsOp.detachOp o => (detach ws o, [])
      | WsOp.setDataOp d => setWeatherData ws d
      | WsOp.notifyOp => (ws, notifyEvents ws)
    let tail := runOps step.1 rest
    (tail.1, step.2 ++ tail.2)

/-! ## FTP client sketch (src/code/thread/number_order.md)

Socket reads are oracles: a control-connection `recv` yields
`Option String` (`none` models a return value `< 0`), and the data
connection yields a list of `recv` return values (`Int`).  Console and
file side effects are events. -/

inductive FtpEvent where
  | recvControl : FtpEvent
  | recvData : Int → FtpEvent
  | printErrLine : String → FtpEvent
  | printOutLine : String → FtpEvent
  | fwriteChunk : Nat → FtpEvent
  | fcloseFile : FtpEvent
  | closeSocket : FtpEvent
deriving DecidableEq, Repr

/-- `receive_ftp_response`: one `recv`; on failure it prints to stderr
and returns the empty string — its `std::string` return type has no
error case, so the caller sees `""` exactly as for an empty success. -/
def receive_ftp_response (recvResult : Option String) : List FtpEvent × String :=
  match recvResult with
  | none => ([FtpEvent.recvControl, FtpEvent.printErrLine "Failed to receive response!"], "")
  | some data => ([FtpEvent.recvControl], data)

/-- `response.find(c)` over the reply characters; the found index.
(When absent the C++ `find` yields `npos`; the theorems below only
exercise replies where the parenthesis search succeeds.) -/
def charFindIdx (s : List Char) (c : Char) : Nat :=
  s.findIdx (fun x => x == c)

/-- The comma splitting performed by `sscanf("%d,%d,%d,%d,%d,%d")`. -/
def splitComma : List Char → List (List Char)
  | [] => [[]]
  | c :: rest =>
    if c = ',' then [] :: splitComma rest
    else
      match splitComma rest with
      | [] => [[c]]
      | g :: gs => (c :: g) :: gs

/-- `sscanf`'s `%d` on a digit field. -/
def digitsToNat (s : List Char) : Nat :=
  s.foldl (fun acc c => acc * 10 + (c.toNat - 48)) 0

/-- The extracted passive-mode address: the four IP fields and the data
port `port1 * 256 + port2`, exactly as the C++ formats them into
`"ip1.ip2.ip3.ip4:port"`. -/
structure PasvAddr where
  ip1 : Nat
  ip2 : Nat
  ip3 : Nat
  ip4 : Nat
  dataPort : Nat
deriving DecidableEq, Repr

/-- `enter_passive_mode`'s parsing of the PASV reply: take the
substring between the first parentheses, split on commas, read six
integers, and use them with no validation of the reply's status code or
of the integers' ranges.  (`none` models the branch where `sscanf`
matches fewer than six fields and the C++ would read uninitialised
variables; no theorem below relies on it.) -/
def enter_passive_mode (reply : List Char) : Option PasvAddr :=
  let start := charFindIdx reply '(' + 1
  let stop := charFindIdx reply ')'
  let info := (reply.drop start).take (stop - start)
  match (splitComma info).map digitsToNat with
  | [a, b, c, d, p1, p2] => some ⟨a, b, c, d, p1 * 256 + p2⟩
  | _ => none

/-- The `while ((bytes_received = recv(...)) > 0)` loop of
`ftp_download_file`: write each positive chunk; the first result `≤ 0`
— error (`-1`) and orderly end (`0`) alike — ends the loop after that
single `recv`, with no retry. -/
def recvLoop : List Int → List FtpEvent
  | [] => []
  | r :: rs =>
    if r > 0 then
      FtpEvent.recvData r :: FtpEvent.fwriteChunk r.toNat :: recvLoop rs
    else [FtpEvent.recvData r]

/-- `ftp_download_file` from the RETR response onward: receive the
control reply, open the local file (early return on failure), run the
data loop, close up, and unconditionally report success.  (The PASV
exchange preceding the RETR is the separately embedded
`enter_passive_mode`.) -/
def ftp_download_file (ctrlReply : Option String) (fopenOk : Bool)
    (dataRecvs : List Int) : List FtpEvent :=
  (receive_ftp_response ctrlReply).1 ++
    (if fopenOk then
      recvLoop dataRecvs ++
        [FtpEvent.fcloseFile, FtpEvent.closeSocket,
         FtpEvent.printOutLine "File downloaded successfully."]
    else [FtpEvent.printErrLine "Failed to open file!"])

/-! ## Odd/even printer (src/code/thread/number_sequence.cpp)

The two threads and the shared `counter` form a transition system.
Each thread sits at the loop index `i` it will print next (`i1` odd,
`i2` even; a value above 20 means its `for` loop has exited).  The
predicate-guarded `cv.wait(lock, [i]{ return counter == i; })` means a
thread can take a step exactly when `counter` equals its pending index;
the step prints, increments `counter` once, and advances the loop.  A
printed line is the pair (thread number, printed value); an execution
is any `Relation.ReflTransGen` chain of steps, so every interleaving
the scheduler could choose is covered. -/

structure NumSeqState where
  i1 : Nat
  i2 : Nat
  counter : Nat
  output : List (Nat × Nat)
deriving DecidableEq, Repr

/-- Initial state: `counter = 1`, thread 1 about to wait for 1, thread
2 about to wait for 2, nothing printed. -/
def numSeqInit : NumSeqState := ⟨1, 2, 1, []⟩

/-- One loop iteration of `printOddNumber` (thread 1) or
`printEvenNumbers` (thread 2): enabled only while the loop index is in
range and `counter` equals it (the `cv.wait` predicate); prints the
index, increments `counter`, advances by 2, and notifies. -/
inductive NumSeqStep : NumSeqState → NumSeqState → Prop where
  | odd (s : NumSeqState) (h1 : s.i1 ≤ 20) (h2 : s.counter = s.i1) :
      NumSeqStep s ⟨s.i1 + 2, s.i2, s.counter + 1, s.output ++ [(1, s.i1)]⟩
  | even (s : NumSeqState) (h1 : s.i2 ≤ 20) (h2 : s.counter = s.i2) :
      NumSeqStep s ⟨s.i1, s.i2 + 2, s.counter + 1, s.output ++ [(2, s.i2)]⟩

/-- Rendering of one printed line, `"Thread t: n"`. -/
def printedLine (p : Nat × Nat) : String :=
  "Thread " ++ toString p.1 ++ ": " ++ toString p.2

/-- The first `n` lines of the documented output: value `k + 1` printed
by thread 1 when odd and thread 2 when even. -/
def numSeqLines (n : Nat) : List (Nat × Nat) :=
  (List.range n).map (fun k => (if (k + 1) % 2 = 1 then 1 else 2, k + 1))

/-- The state after both loops have finished. -/
def numSeqFinal : NumSeqState :=
  ⟨21, 22, 21,
    [(1, 1), (2, 2), (1, 3), (2, 4), (1, 5), (2, 6), (1, 7), (2, 8),
     (1, 9), (2, 10), (1, 11), (2, 12), (1, 13), (2, 14), (1, 15),
     (2, 16), (1, 17), (2, 18), (1, 19), (2, 20)]⟩

/-- Inductive invariant of the transition system: the indices keep
their parities and bounds, `counter` always equals the smaller pending
index, the two pending indices are consecutive, and the output so far
is exactly the first `counter - 1` documented lines. -/
def NumSeqInv (s : NumSeqState) : Prop :=
  s.i1 % 2 = 1 ∧ s.i2 % 2 = 0 ∧ 1 ≤ s.i1 ∧ 2 ≤ s.i2 ∧ s.i1 ≤ 21 ∧ s.i2 ≤ 22 ∧
  s.counter = min s.i1 s.i2 ∧ (s.i2 = s.i1 + 1 ∨ s.i1 = s.i2 + 1) ∧
  s.output = numSeqLines (s.counter - 1)

/-! ## Theorems -/

/-- C1: every iteration of `ThreadPool::worker`'s loop only sleeps for
one second and prints "Worker thread is working!"; no event of any
worker trace dequeues or executes a task, each iteration contributes
exactly the sleep-then-print pair, and the constructor spawns exactly
the requested number of workers (the class having no task queue and no
submit operation). -/
theorem threadPool_worker_never_runs_tasks (k : Nat) (e : PoolEvent)
    (he : e ∈ workerTrace k) :
    (e = PoolEvent.sleepSeconds 1 ∨ e = PoolEvent.printLine workerMsg) ∧
    e ≠ PoolEvent.dequeueTask ∧ e ≠ PoolEvent.executeTask ∧
    workerTrace (k + 1) = workerIteration ++ workerTrace k ∧
    (∀ n, (mkThreadPool n).workers.length = n) := by
  have hshape : e = PoolEvent.sleepSeconds 1 ∨ e = PoolEvent.printLine workerMsg := by
    induction k with
    | zero => simp [workerTrace] at he
    | succ n ih =>
      rcases List.mem_append.1 he with h | h
      · simp only [workerIteration, List.mem_cons, List.mem_singleton] at h
        rcases h with h | h | h
        · exact Or.inl h
        · exact Or.inr h
        · simp at h
      · exact ih h
  refine ⟨hshape, ?_, ?_, rfl, fun n => by simp [mkThreadPool]⟩
  · rcases hshape with h | h <;> subst h <;> intro hc <;> cases hc
  · rcases hshape with h | h <;> subst h <;> intro hc <;> cases hc

/-- C1 witness: the second iteration's print event is in the trace of
two iterations, and the theorem's conclusions hold for it. -/
theorem threadPool_worker_never_runs_tasks_witness :
    PoolEvent.printLine workerMsg ∈ workerTrace 2 ∧
    PoolEvent.printLine workerMsg ≠ PoolEvent.dequeueTask :=
  ⟨by decide, (threadPool_worker_never_runs_tasks 2 (PoolEvent.printLine workerMsg)
      (by decide)).2.1⟩

/-- C2: raises-iff characterisation of `calculate`: division by zero
throws `std::invalid_argument` with the documented message, nonzero
division returns the quotient without throwing, the three other
supported operators return their arithmetic result without throwing,
and every unsupported operator throws `std::invalid_argument`. -/
theorem calculate_raises_iff (num1 num2 : ℚ) (op : String)
    (hop : op ≠ "+" ∧ op ≠ "-" ∧ op ≠ "*" ∧ op ≠ "/") :
    calculate num1 num2 "+" = Except.ok (num1 + num2) ∧
    calculate num1 num2 "-" = Except.ok (num1 - num2) ∧
    calculate num1 num2 "*" = Except.ok (num1 * num2) ∧
    (num2 = 0 →
      calculate num1 num2 "/" = Except.error "Error: Division by zero is not allowed.") ∧
    (num2 ≠ 0 → calculate num1 num2 "/" = Except.ok (num1 / num2)) ∧
    calculate num1 num2 op = Except.error "Error: Invalid operator.Support are +, -, *, /" := by
  obtain ⟨h1, h2, h3, h4⟩ := hop
  refine ⟨by simp [calculate], by simp [calculate], by simp [calculate],
    fun hz => by simp [calculate, hz], fun hz => by simp [calculate, hz], ?_⟩
  unfold calculate
  rw [if_neg h1, if_neg h2, if_neg h3, if_neg h4]

/-- C2 witness: at `num1 = 1`, `num2 = 0`, `op = "%"` the operator is
unsupported and the characterisation evaluates as stated. -/
theorem calculate_raises_iff_witness :
    calculate 1 0 "/" = Except.error "Error: Division by zero is not allowed." ∧
    calculate 1 0 "%" = Except.error "Error: Invalid operator.Support are +, -, *, /" := by
  have h := calculate_raises_iff 1 0 "%" (by decide)
  exact ⟨h.2.2.2.1 rfl, h.2.2.2.2.2⟩

/-- C3: when `argc ≠ 4` the calculator's `main` prints the usage line
to stderr but execution falls through: the reads of `argv[1]`, `argv[2]`
and `argv[3]` still occur after the message, and when fewer than four
arguments are supplied the read of `argv[3]` is out of range. -/
theorem calcMain_usage_falls_through (argc : Nat) (h : argc ≠ 4) :
    calcMainTrace argc =
      CalcEvent.printErrLine usageMsg ::
        [CalcEvent.readArgv 1 (decide (argc ≤ 1)),
         CalcEvent.readArgv 2 (decide (argc ≤ 2)),
         CalcEvent.readArgv 3 (decide (argc ≤ 3))] ∧
    (argc < 4 → CalcEvent.readArgv 3 true ∈ calcMainTrace argc) := by
  constructor
  · simp [calcMainTrace, h]
  · intro hlt
    have h3 : argc ≤ 3 := Nat.lt_succ_iff.1 hlt
    simp [calcMainTrace, h, h3]

/-- C3 witness: with `argc = 1` (program name only) the usage message is
printed, the trace still reads all three argument slots, and the
`argv[3]` read is out of range. -/
theorem calcMain_usage_falls_through_witness :
    (1 : Nat) ≠ 4 ∧ CalcEvent.readArgv 3 true ∈ calcMainTrace 1 :=
  ⟨by decide, (calcMain_usage_falls_through 1 (by decide)).2 (by decide)⟩

/-- C7: storing then looking up round-trips in the std::map-backed
cache: after `cache[url] = content`, reading `cache[url]` returns
exactly `content` and leaves the map unchanged; the whole state of the
snippet is the map, and the concrete snippet prints the stored page. -/
theorem cache_store_lookup_roundtrip :
    (∀ (m : List (String × String)) (url content : String),
      mapIndexRead (mapAssign m url content) url = (content, mapAssign m url content)) ∧
    cacheSnippetFinal = "<html>hello</html>" := by
  constructor
  · intro m url content
    induction m with
    | nil => simp [mapAssign, mapIndexRead]
    | cons p rest ih =>
      obtain ⟨k, v⟩ := p
      by_cases h : k = url
      · subst h
        simp [mapAssign, mapIndexRead]
      · simp [mapAssign, mapIndexRead, h, ih]
  · decide

/-- C8: applying `std::transform` with the `MultiplyByTwo` functor to
{1, 2, 3, 4, 5} in place yields {2, 4, 6, 8, 10}; every element x is
replaced by 2 * x, and the printed output is "2 4 6 8 10 ". -/
theorem functor_map_doubles :
    transformed = [2, 4, 6, 8, 10] ∧
    (∀ l : List Int, l.map multiplyByTwo = l.map (fun x => 2 * x)) ∧
    printSpaced transformed = "2 4 6 8 10 " := by
  refine ⟨by decide, fun l => ?_, by decide⟩
  simp [multiplyByTwo, Int.mul_comm]

/-- C9: the value-update loop changes only the values: keys and entry
count are preserved for every map, every value v becomes v + 1, and on
the snippet's map {{1,10},{2,20},{3,30}} the program prints exactly
"1: 11", "2: 21", "3: 31". -/
theorem map_value_update_frame :
    (∀ m : List (Int × Int), (mapValuesInc m).map Prod.fst = m.map Prod.fst) ∧
    (∀ m : List (Int × Int), (mapValuesInc m).length = m.length) ∧
    (∀ m : List (Int × Int), mapValuesInc m = m.map (fun p => (p.1, p.2 + 1))) ∧
    mapValuesInc myMap = [(1, 11), (2, 21), (3, 31)] ∧
    printMapLines (mapValuesInc myMap) = ["1: 11", "2: 21", "3: 31"] := by
  refine ⟨fun m => ?_, fun m => ?_, fun m => ?_, by decide, by decide⟩
  · simp [mapValuesInc]
  · simp [mapValuesInc]
  · simp [mapValuesInc, incrementValue]

theorem lookupPool_eq_none (pool : List (Char × ConcreteCharacter)) (c : Char)
    (h : lookupPool pool c = none) : c ∉ pool.map Prod.fst := by
  induction pool with
  | nil => simp
  | cons p rest ih =>
    obtain ⟨k, v⟩ := p
    by_cases hk : k = c
    · simp [lookupPool, hk] at h
    · simp only [lookupPool, if_neg hk] at h
      simp only [List.map_cons, List.mem_cons]
      rintro (rfl | hmem)
      · exact hk rfl
      · exact ih h hmem

theorem lookupPool_mem (pool : List (Char × ConcreteCharacter)) (c : Char)
    (ch : ConcreteCharacter) (h : lookupPool pool c = some ch) : (c, ch) ∈ pool := by
  induction pool with
  | nil => simp [lookupPool] at h
  | cons p rest ih =>
    obtain ⟨k, v⟩ := p
    by_cases hk : k = c
    · subst hk
      have hv : v = ch := by simpa [lookupPool] using h
      subst hv
      exact List.mem_cons_self _ _
    · simp only [lookupPool, if_neg hk] at h
      exact List.mem_cons_of_mem _ (ih h)

theorem lookupPool_append_self (pool : List (Char × ConcreteCharacter)) (c : Char)
    (ch : ConcreteCharacter) (h : lookupPool pool c = none) :
    lookupPool (pool ++ [(c, ch)]) c = some ch := by
  induction pool with
  | nil => simp [lookupPool]
  | cons p rest ih =>
    obtain ⟨k, v⟩ := p
    by_cases hk : k = c
    · simp [lookupPool, hk] at h
    · simp only [lookupPool, if_neg hk] at h ⊢
      exact ih h

/-- C6: repeated `getCharacter` calls for the same char return the same
flyweight and leave the factory unchanged; the returned flyweight stores
exactly the requested char; a new `ConcreteCharacter` is allocated only
when the pool has no entry for the char (and when one exists, nothing is
allocated and the pool is untouched); and the pool invariant — at most
one flyweight per distinct char, each storing the char it is keyed by —
is preserved. -/
theorem flyweight_getCharacter_shared (f : FlyweightFactory) (c : Char)
    (hwf : PoolWF f) :
    (getCharacter (getCharacter f c).2 c).1 = (getCharacter f c).1 ∧
    (getCharacter (getCharacter f c).2 c).2 = (getCharacter f c).2 ∧
    PoolWF (getCharacter f c).2 ∧
    (getCharacter f c).1.character = c ∧
    (lookupPool f.characterPool c = none →
      (getCharacter f c).2.characterPool =
        f.characterPool ++ [(c, ⟨f.nextId, c⟩)]) ∧
    (∀ ch, lookupPool f.characterPool c = some ch →
      (getCharacter f c).2 = f ∧ (getCharacter f c).1 = ch) := by
  obtain ⟨hchar, hnodup⟩ := hwf
  cases hfind : lookupPool f.characterPool c with
  | some ch =>
    have hmem : (c, ch) ∈ f.characterPool := lookupPool_mem _ _ _ hfind
    have hc : ch.character = c := (hchar _ hmem).1
    have heq : getCharacter f c = (ch, f) := by simp [getCharacter, hfind]
    refine ⟨by simp [heq], by simp [heq], ?_, by simp [heq, hc], ?_, ?_⟩
    · rw [heq]
      exact ⟨hchar, hnodup⟩
    · intro h0
      exact Option.noConfusion h0
    · intro ch2 h2
      have h3 : ch = ch2 := Option.some.inj h2
      rw [heq]
      exact ⟨rfl, h3⟩
  | none =>
    have hfresh : c ∉ f.characterPool.map Prod.fst := lookupPool_eq_none _ _ hfind
    have hlook2 : lookupPool (f.characterPool ++ [(c, ⟨f.nextId, c⟩)]) c =
        some ⟨f.nextId, c⟩ := lookupPool_append_self _ _ _ hfind
    have heq : getCharacter f c =
        (⟨f.nextId, c⟩, ⟨f.characterPool ++ [(c, ⟨f.nextId, c⟩)], f.nextId + 1⟩) := by
      simp [getCharacter, hfind]
    have heq2 : getCharacter (⟨f.characterPool ++ [(c, ⟨f.nextId, c⟩)],
        f.nextId + 1⟩ : FlyweightFactory) c =
        (⟨f.nextId, c⟩, ⟨f.characterPool ++ [(c, ⟨f.nextId, c⟩)], f.nextId + 1⟩) := by
      simp [getCharacter, hlook2]
    refine ⟨by simp [heq, heq2], by simp [heq, heq2], ?_, by simp [heq],
      fun _ => by simp [heq], ?_⟩
    · rw [heq]
      refine ⟨?_, ?_⟩
      · intro p hp
        rcases List.mem_append.1 hp with hp | hp
        · exact ⟨(hchar _ hp).1, Nat.lt_succ_of_lt (hchar _ hp).2⟩
        · simp only [List.mem_singleton] at hp
          subst hp
          exact ⟨rfl, Nat.lt_succ_self _⟩
      · rw [List.map_append]
        refine List.Nodup.append hnodup (by simp) ?_
        intro a ha hb
        simp only [List.map_cons, List.map_nil, List.mem_singleton] at hb
        subst hb
        exact hfresh ha
    · intro ch2 h2
      exact Option.noConfusion h2

/-- C6 witness: starting from the empty factory, requesting 'A' twice
returns the same flyweight both times. -/
theorem flyweight_getCharacter_shared_witness :
    PoolWF ⟨[], 0⟩ ∧
    (getCharacter (getCharacter ⟨[], 0⟩ 'A').2 'A').1 = (getCharacter ⟨[], 0⟩ 'A').1 := by
  have hwf : PoolWF ⟨[], 0⟩ := ⟨fun p hp => by simp at hp, by simp⟩
  exact ⟨hwf, (flyweight_getCharacter_shared ⟨[], 0⟩ 'A' hwf).1⟩

theorem runOps_absent (ws : WeatherStation) (o : ObserverId) (ops : List WsOp)
    (hno : ∀ op ∈ ops, op ≠ WsOp.attachOp o) (habs : o ∉ ws.observers) :
    o ∉ (runOps ws ops).1.observers ∧ ∀ d, (o, d) ∉ (runOps ws ops).2 := by
  induction ops generalizing ws with
  | nil => exact ⟨habs, fun d => by simp [runOps]⟩
  | cons op rest ih =>
    have hno2 : ∀ op2 ∈ rest, op2 ≠ WsOp.attachOp o :=
      fun op2 h2 => hno op2 (List.mem_cons_of_mem _ h2)
    cases op with
    | attachOp o2 =>
      have hne : o2 ≠ o := by
        intro h
        exact hno _ (List.mem_cons_self _ _) (by rw [h])
      have habs2 : o ∉ (attach ws o2).observers := by
        simp only [attach, List.mem_append, List.mem_singleton]
        rintro (h | rfl)
        · exact habs h
        · exact hne rfl
      obtain ⟨h1, h2⟩ := ih (attach ws o2) hno2 habs2
      exact ⟨h1, fun d => by simpa [runOps] using h2 d⟩
    | detachOp o2 =>
      have habs2 : o ∉ (detach ws o2).observers := by
        simp only [detach, List.mem_filter]
        intro h
        exact habs h.1
      obtain ⟨h1, h2⟩ := ih (detach ws o2) hno2 habs2
      exact ⟨h1, fun d => by simpa [runOps] using h2 d⟩
    | setDataOp d2 =>
      have habs2 : o ∉ (WeatherStation.mk ws.observers d2).observers := habs
      obtain ⟨h1, h2⟩ := ih _ hno2 habs2
      refine ⟨h1, fun d => ?_⟩
      simp only [runOps, setWeatherData, List.mem_append]
      rintro (h | h)
      · rcases List.mem_map.1 h with ⟨x, hx, hxe⟩
        cases hxe
        exact habs2 hx
      · exact h2 d h
    | notifyOp =>
      obtain ⟨h1, h2⟩ := ih ws hno2 habs
      refine ⟨h1, fun d => ?_⟩
      simp only [runOps, List.mem_append]
      rintro (h | h)
      · rcases List.mem_map.1 h with ⟨x, hx, hxe⟩
        cases hxe
        exact habs hx
      · exact h2 d h

theorem filter_updates_of_not_mem (wd : String) (ob : ObserverId)
    (l : List ObserverId) (h : ob ∉ l) :
    (l.map (fun x => (x, wd))).filter (fun ev => decide (ev.1 = ob)) = [] := by
  induction l with
  | nil => rfl
  | cons a t ih =>
    have ha : a ≠ ob := fun he => h (he ▸ List.mem_cons_self a t)
    have ht : ob ∉ t := fun he => h (List.mem_cons_of_mem _ he)
    simp [List.filter_cons, ha, ih ht]

theorem filter_updates_count (wd : String) (ob : ObserverId)
    (l : List ObserverId) (hnd : l.Nodup) (hmem : ob ∈ l) :
    ((l.map (fun x => (x, wd))).filter (fun ev => decide (ev.1 = ob))).length = 1 := by
  induction l with
  | nil => simp at hmem
  | cons a t ih =>
    rcases List.mem_cons.1 hmem with rfl | hmem2
    · have hnt : ob ∉ t := (List.nodup_cons.1 hnd).1
      simp [List.filter_cons, filter_updates_of_not_mem wd ob t hnt]
    · have ha : a ≠ ob := by
        rintro rfl
        exact (List.nodup_cons.1 hnd).1 hmem2
      have hnt : t.Nodup := (List.nodup_cons.1 hnd).2
      simp [List.filter_cons, ha, ih hnt hmem2]

/-- C10: after `detach(o)`, no later `notify` — including the notifies
triggered by `setWeatherData` — invokes `o->update`, as long as `o` is
not re-attached; and every `notify` invokes `update` exactly once per
currently attached observer, in attachment order, passing the current
`weatherData`. -/
theorem observer_detach_notify (ws : WeatherStation) (o : ObserverId)
    (ops : List WsOp) (hno : ∀ op ∈ ops, op ≠ WsOp.attachOp o) :
    (∀ d, (o, d) ∉ (runOps (detach ws o) ops).2) ∧
    ((notifyEvents ws).map Prod.fst = ws.observers) ∧
    (∀ ev ∈ notifyEvents ws, ev.2 = ws.weatherData) ∧
    (ws.observers.Nodup → ∀ ob ∈ ws.observers,
      ((notifyEvents ws).filter (fun ev => decide (ev.1 = ob))).length = 1) := by
  have habs : o ∉ (detach ws o).observers := by
    simp [detach, List.mem_filter]
  refine ⟨(runOps_absent _ o ops hno habs).2, ?_, ?_, ?_⟩
  · have hall : ∀ l : List ObserverId,
        (l.map (fun x => (x, ws.weatherData))).map Prod.fst = l := by
      intro l
      induction l with
      | nil => rfl
      | cons a t ih => simp [ih]
    simpa only [notifyEvents] using hall ws.observers
  · intro ev hev
    rcases List.mem_map.1 hev with ⟨x, _, hxe⟩
    rw [← hxe]
  · intro hnd ob hob
    simpa only [notifyEvents] using
      filter_updates_count ws.weatherData ob ws.observers hnd hob

/-- C10 witness: with observers 1 and 2 attached, detaching 1 and then
setting new weather data never updates observer 1. -/
theorem observer_detach_notify_witness :
    (∀ op ∈ [WsOp.setDataOp "b"], op ≠ WsOp.attachOp 1) ∧
    ((1, "b") ∉ (runOps (detach ⟨[1, 2], "a"⟩ 1) [WsOp.setDataOp "b"]).2) := by
  have h := observer_detach_notify ⟨[1, 2], "a"⟩ 1 [WsOp.setDataOp "b"] (by decide)
  exact ⟨by decide, h.1 "b"⟩

/-- C4: the FTP sketch handles neither partial transfers, nor retries,
nor malformed replies: `receive_ftp_response` performs exactly one
`recv` and on failure returns `""`, indistinguishable to its caller
from an empty success; `enter_passive_mode` extracts and uses the six
integers of the reply unvalidated — it accepts a well-formed 227 reply
and equally a 500 reply with out-of-range octets and port; and
`ftp_download_file` ends every run with "File downloaded successfully."
once the local file opens, treating the very first `recv` result `≤ 0`
on the data connection as end of transfer with no retry. -/
theorem ftp_client_no_failure_handling :
    (∀ r : Option String,
      ((receive_ftp_response r).1.filter
        (fun e => decide (e = FtpEvent.recvControl))).length = 1) ∧
    (receive_ftp_response none).2 = "" ∧
    (receive_ftp_response none).2 = (receive_ftp_response (some "")).2 ∧
    enter_passive_mode ("227 Entering Passive Mode (192,168,1,1,19,200)".data) =
      some ⟨192, 168, 1, 1, 5064⟩ ∧
    enter_passive_mode ("500 Not entering passive mode (999,999,999,999,700,800)".data) =
      some ⟨999, 999, 999, 999, 180000⟩ ∧
    (∀ (ctrlReply : Option String) (dataRecvs : List Int),
      (ftp_download_file ctrlReply true dataRecvs).getLast? =
        some (FtpEvent.printOutLine "File downloaded successfully.")) ∧
    (∀ (r : Int) (rs : List Int), r ≤ 0 →
      recvLoop (r :: rs) = [FtpEvent.recvData r]) := by
  refine ⟨?_, rfl, rfl, by decide, by decide, ?_, ?_⟩
  · intro r
    cases r <;> rfl
  · intro ctrlReply dataRecvs
    rw [ftp_download_file, if_pos rfl, List.getLast?_append, List.getLast?_append]
    rfl
  · intro r rs h
    rw [recvLoop, if_neg (not_lt.2 h)]

theorem numSeqLines_succ (n : Nat) :
    numSeqLines (n + 1) =
      numSeqLines n ++ [(if (n + 1) % 2 = 1 then 1 else 2, n + 1)] := by
  simp [numSeqLines, List.range_succ]

theorem numSeqInv_init : NumSeqInv numSeqInit :=
  ⟨rfl, rfl, by decide, by decide, by decide, by decide, by decide,
    Or.inl rfl, by decide⟩

theorem numSeqInv_step {s t : NumSeqState} (hinv : NumSeqInv s)
    (hstep : NumSeqStep s t) : NumSeqInv t := by
  obtain ⟨hp1, hp2, hge1, hge2, hle1, hle2, hcnt, hdiff, hout⟩ := hinv
  cases hstep with
  | odd h1 h2 =>
    have hle : s.i1 ≤ s.i2 := by
      rcases hdiff with h | h <;> omega
    have hmin : min s.i1 s.i2 = s.i1 := Nat.min_eq_left hle
    have hnext : s.i2 = s.i1 + 1 := by
      rcases hdiff with h | h
      · exact h
      · omega
    simp only [NumSeqInv]
    refine ⟨by omega, hp2, by omega, by omega, by omega, hle2, ?_, Or.inr (by omega), ?_⟩
    · rw [hcnt, hmin, hnext, Nat.min_eq_right (by omega)]
    · have hc : s.counter = s.i1 := h2
      have he : s.i1 = (s.i1 - 1) + 1 := by omega
      rw [hout, hc, Nat.add_sub_cancel]
      conv_rhs => rw [he, numSeqLines_succ, ← he]
      rw [if_pos hp1]
  | even h1 h2 =>
    have hle : s.i2 ≤ s.i1 := by
      rcases hdiff with h | h <;> omega
    have hmin : min s.i1 s.i2 = s.i2 := Nat.min_eq_right hle
    have hnext : s.i1 = s.i2 + 1 := by
      rcases hdiff with h | h
      · omega
      · exact h
    simp only [NumSeqInv]
    refine ⟨hp1, by omega, hge1, by omega, hle1, by omega, ?_, Or.inl (by omega), ?_⟩
    · rw [hcnt, hmin, hnext, Nat.min_eq_left (by omega)]
    · have hc : s.counter = s.i2 := h2
      have he : s.i2 = (s.i2 - 1) + 1 := by omega
      rw [hout, hc, Nat.add_sub_cancel]
      conv_rhs => rw [he, numSeqLines_succ, ← he]
      have hodd : ¬ s.i2 % 2 = 1 := by omega
      rw [if_neg hodd]

theorem numSeq_reachable_inv (s : NumSeqState)
    (h : Relation.ReflTransGen NumSeqStep numSeqInit s) : NumSeqInv s := by
  induction h with
  | refl => exact numSeqInv_init
  | tail _ hbc ih => exact numSeqInv_step ih hbc

/-- C5: in every complete execution of the odd/even printer — every
maximal interleaving of the two predicate-guarded threads — the program
prints exactly the twenty documented lines "Thread 1: 1" … "Thread 2:
20" in increasing order, thread 1 printing the odd numbers and thread 2
the even ones, with `counter` incremented exactly once per printed
line. -/
theorem numSeq_alternation (s : NumSeqState)
    (hreach : Relation.ReflTransGen NumSeqStep numSeqInit s)
    (hterm : ∀ t, ¬ NumSeqStep s t) :
    s.output = numSeqLines 20 ∧
    s.output.map printedLine =
      ["Thread 1: 1", "Thread 2: 2", "Thread 1: 3", "Thread 2: 4",
       "Thread 1: 5", "Thread 2: 6", "Thread 1: 7", "Thread 2: 8",
       "Thread 1: 9", "Thread 2: 10", "Thread 1: 11", "Thread 2: 12",
       "Thread 1: 13", "Thread 2: 14", "Thread 1: 15", "Thread 2: 16",
       "Thread 1: 17", "Thread 2: 18", "Thread 1: 19", "Thread 2: 20"] ∧
    s.counter = 21 ∧ s.counter = 1 + s.output.length := by
  obtain ⟨hp1, hp2, hge1, hge2, hle1, hle2, hcnt, hdiff, hout⟩ :=
    numSeq_reachable_inv s hreach
  have hcge : 21 ≤ s.counter := by
    by_contra hc
    push_neg at hc
    rcases Nat.le_total s.i1 s.i2 with hle | hle
    · have h2 : s.counter = s.i1 := by rw [hcnt, Nat.min_eq_left hle]
      exact hterm _ (NumSeqStep.odd s (by omega) h2)
    · have h2 : s.counter = s.i2 := by rw [hcnt, Nat.min_eq_right hle]
      exact hterm _ (NumSeqStep.even s (by omega) h2)
  have hcle : s.counter ≤ 21 := by
    rcases Nat.le_total s.i1 s.i2 with hle | hle
    · rw [hcnt, Nat.min_eq_left hle]
      exact hle1
    · rw [hcnt, Nat.min_eq_right hle]
      omega
  have hc21 : s.counter = 21 := le_antisymm hcle hcge
  have hout20 : s.output = numSeqLines 20 := by
    rw [hout, hc21]
  refine ⟨hout20, ?_, hc21, ?_⟩
  · rw [hout20]
    decide
  · rw [hout20, hc21]
    decide

/-- C5 witness: the canonical complete execution — twenty alternating
steps from the initial state — reaches the final state, which is
terminal, and its output is exactly the twenty documented lines. -/
theorem numSeq_alternation_witness :
    Relation.ReflTransGen NumSeqStep numSeqInit numSeqFinal ∧
    (∀ t, ¬ NumSeqStep numSeqFinal t) ∧
    numSeqFinal.output = numSeqLines 20 := by
  have hchain : Relation.ReflTransGen NumSeqStep numSeqInit numSeqFinal := by
    refine Relation.ReflTransGen.head (NumSeqStep.odd numSeqInit (by decide) (by decide)) ?_
    refine Relation.ReflTransGen.head (NumSeqStep.even _ (by decide) (by decide)) ?_
    refine Relation.ReflTransGen.head (NumSeqStep.odd _ (by decide) (by decide)) ?_
    refine Relation.ReflTransGen.head (NumSeqStep.even _ (by decide) (by decide)) ?_
    refine Relation.ReflTransGen.head (NumSeqStep.odd _ (by decide) (by decide)) ?_
    refine Relation.ReflTransGen.head (NumSeqStep.even _ (by decide) (by decide)) ?_
    refine Relation.ReflTransGen.head (NumSeqStep.odd _ (by decide) (by decide)) ?_
    refine Relation.ReflTransGen.head (NumSeqStep.even _ (by decide) (by decide)) ?_
    refine Relation.ReflTransGen.head (NumSeqStep.odd _ (by decide) (by decide)) ?_
    refine Relation.ReflTransGen.head (NumSeqStep.even _ (by decide) (by decide)) ?_
    refine Relation.ReflTransGen.head (NumSeqStep.odd _ (by decide) (by decide)) ?_
    refine Relation.ReflTransGen.head (NumSeqStep.even _ (by decide) (by decide)) ?_
    refine Relation.ReflTransGen.head (NumSeqStep.odd _ (by decide) (by decide)) ?_
    refine Relation.ReflTransGen.head (NumSeqStep.even _ (by decide) (by decide)) ?_
    refine Relation.ReflTransGen.head (NumSeqStep.odd _ (by decide) (by decide)) ?_
    refine Relation.ReflTransGen.head (NumSeqStep.even _ (by decide) (by decide)) ?_
    refine Relation.ReflTransGen.head (NumSeqStep.odd _ (by decide) (by decide)) ?_
    refine Relation.ReflTransGen.head (NumSeqStep.even _ (by decide) (by decide)) ?_
    refine Relation.ReflTransGen.head (NumSeqStep.odd _ (by decide) (by decide)) ?_
    refine Relation.ReflTransGen.head (NumSeqStep.even _ (by decide) (by decide)) ?_
    exact Relation.ReflTransGen.refl
  have hterm : ∀ t, ¬ NumSeqStep numSeqFinal t := by
    intro t ht
    cases ht with
    | odd h1 h2 => exact absurd h1 (by decide)
    | even h1 h2 => exact absurd h1 (by decide)
  exact ⟨hchain, hterm, (numSeq_alternation numSeqFinal hchain hterm).1⟩

/-- C4 witness: a data connection whose very first `recv` returns the
error value `-1` still ends with the success report, and the loop stops
after that single `recv`. -/
theorem ftp_client_no_failure_handling_witness :
    ((-1 : Int) ≤ 0) ∧
    recvLoop [-1] = [FtpEvent.recvData (-1)] ∧
    (ftp_download_file none true [-1]).getLast? =
      some (FtpEvent.printOutLine "File downloaded successfully.") := by
  have h := ftp_client_no_failure_handling
  exact ⟨by decide, h.2.2.2.2.2.2 (-1) [] (by decide), h.2.2.2.2.2.1 none [-1]⟩
